import Mathlib

/-
Verification of the specinit GitHub workflow engine and GitHub service.

The data model (Issue, PullRequest) and merge_pull_request are embedded from
src/specinit/github/service.py.  The workflow engine (specinit/github/workflow.py)
is imported by the package and exercised by tests/unit/test_github_workflow.py but
its source file is not present in the repository snapshot; its definitions below
are therefore modelled from the specification, as marked in each doc comment.
-/

/-- Embedded from service.py: a GitHub issue value object. -/
structure Issue where
  number : Nat
  title : String
  body : String
  labels : List String
  state : String := "open"
  url : String := ""
deriving DecidableEq

/-- Embedded from service.py: a GitHub pull-request value object. -/
structure PullRequest where
  number : Nat
  title : String
  body : String
  head : String
  base : String
  state : String := "open"
  url : String := ""
  mergeable : Option Bool := none
  ciStatus : Option String := none
deriving DecidableEq

/-- Modelled from the spec: the closed status enumeration of the workflow
state machine (workflow.py is missing from the snapshot; the constructor set
is the one required by the spec and asserted by the unit tests). -/
inductive IssueStatus where
  | queued
  | inProgress
  | precommitFailed
  | precommitFixing
  | prCreated
  | ciRunning
  | ciFailed
  | ciFixing
  | coverageFailed
  | coverageFixing
  | inReview
  | changesRequested
  | reviewFixing
  | approved
  | merged
  | blocked
  | failed
deriving DecidableEq

/-- Modelled from the spec: per-run coverage threshold configuration
(defaults asserted by the unit tests). -/
structure CoverageThresholds where
  overall : Nat := 90
  logic : Nat := 90
  ui : Nat := 60
  tests : Nat := 0
deriving DecidableEq

/-- Modelled from the spec: the immutable per-run workflow configuration
(defaults asserted by the unit tests). -/
structure GitHubConfig where
  owner : String
  repo : String
  baseBranch : String := "main"
  autoMerge : Bool := false
  yoloMode : Bool := false
  maxFixAttempts : Nat := 3
  parallelBranches : Nat := 1
  iterateOnPrecommit : Bool := true
  iterateOnCi : Bool := true
  iterateOnCoverage : Bool := true
  claudeCodeReview : Bool := false
  ciTimeoutSeconds : Nat := 600
  ciPollInterval : Nat := 10
  reviewPollInterval : Nat := 30
  coverageThresholds : CoverageThresholds := {}
deriving DecidableEq

/-- Modelled from the spec: the engine-owned mutable record wrapping one
issue (defaults asserted by the unit tests). -/
structure WorkflowIssue where
  issue : Issue
  status : IssueStatus := IssueStatus.queued
  branchName : String := ""
  pr : Option PullRequest := none
  dependencies : List Nat := []
  fixAttempts : Nat := 0
  errorMessage : String := ""
deriving DecidableEq

/-- The issue store: a finite map from issue number to workflow record,
embedded as an association list. -/
def IssueStore : Type := List (Nat × WorkflowIssue)

/-- Look up an issue record by number in the store. -/
def lookupIssue (store : IssueStore) (n : Nat) : Option WorkflowIssue :=
  (List.find? (fun p => p.1 == n) store).map (fun p => p.2)

/-- Modelled from the spec: a dependency id is satisfied iff it maps to an
issue whose status is the terminal success status merged. -/
def depMerged (store : IssueStore) (d : Nat) : Bool :=
  match lookupIssue store d with
  | some dep => decide (dep.status = IssueStatus.merged)
  | none => false

/-- Modelled from the spec: readiness invariant — status queued and every
dependency merged. -/
def isReady (store : IssueStore) (wi : WorkflowIssue) : Bool :=
  decide (wi.status = IssueStatus.queued) && wi.dependencies.all (fun d => depMerged store d)

/-- Modelled from the spec: get_ready_issues filters the store by the
readiness invariant, with no side effects. -/
def get_ready_issues (store : IssueStore) : List WorkflowIssue :=
  (store.map (fun p => p.2)).filter (fun wi => isReady store wi)

/-- Outcome of one run of the local quality check command
(exit code 0 = pass; otherwise the captured output). -/
inductive CheckResult where
  | passed
  | failed (output : String)
deriving DecidableEq

/-- Modelled from the spec: one run of the local quality check; on failure the
captured output is recorded in the error message and the fix-attempt counter
is incremented (behaviour asserted by the run_precommit unit tests). -/
def run_precommit (item : WorkflowIssue) (r : CheckResult) : Bool × WorkflowIssue :=
  match r with
  | CheckResult.passed => (true, item)
  | CheckResult.failed out =>
      (false, { item with errorMessage := out, fixAttempts := item.fixAttempts + 1 })

/-- Result of the local-quality iteration controller: success flag, final
item state, number of check runs, number of re-invocations of the
implementation routine. -/
structure PrecommitRun where
  ok : Bool
  item : WorkflowIssue
  runs : Nat
  implCalls : Nat
deriving DecidableEq

/-- Modelled from the spec: the bounded retry loop of the local-quality
controller.  Each iteration runs the check (the k-th run outcome is given by
the environment function checks); on failure it records the captured output,
increments the fix-attempt counter, re-invokes the implementation routine and
retries; an exhausted budget sets status precommitFailed and returns failure. -/
def iteratePrecommitGo (checks : Nat → CheckResult) :
    Nat → Nat → Nat → Nat → WorkflowIssue → PrecommitRun
  | 0, _, runs, impls, item =>
      ⟨false, { item with status := IssueStatus.precommitFailed }, runs, impls⟩
  | Nat.succ fuel, k, runs, impls, item =>
      match checks k with
      | CheckResult.passed => ⟨true, item, runs + 1, impls⟩
      | CheckResult.failed out =>
          iteratePrecommitGo checks fuel (k + 1) (runs + 1) (impls + 1)
            { item with errorMessage := out, fixAttempts := item.fixAttempts + 1 }

/-- Modelled from the spec: the local-quality iteration controller.  When
iteration is disabled the check runs exactly once with no retry; otherwise the
bounded loop runs up to maxFixAttempts times. -/
def iterate_precommit (cfg : GitHubConfig) (checks : Nat → CheckResult)
    (item : WorkflowIssue) : PrecommitRun :=
  if cfg.iterateOnPrecommit then
    iteratePrecommitGo checks cfg.maxFixAttempts 0 0 0 item
  else
    match run_precommit item (checks 0) with
    | (ok, item2) => ⟨ok, item2, 1, 0⟩

/-- One external check run, as returned by the check-runs API. -/
structure CheckRun where
  name : String := ""
  status : String
  conclusion : String
deriving DecidableEq

/-- Modelled from the spec: a conclusion counts as passing iff it is success
or skipped. -/
def goodConclusion (c : String) : Bool := c == "success" || c == "skipped"

/-- A check run has reported completion. -/
def runCompleted (r : CheckRun) : Bool := r.status == "completed"

/-- Verdict of inspecting one poll of the check-run list. -/
inductive PollVerdict where
  | pass
  | fail
  | pending
deriving DecidableEq

/-- Modelled from the spec: evaluate one poll of the check-run list.  An empty
list is still pending; any completed run with a non-success, non-skipped
conclusion is a failure; all runs completed and passing is a pass; otherwise
still pending. -/
def evalCheckRuns (runs : List CheckRun) : PollVerdict :=
  if runs.isEmpty then PollVerdict.pending
  else if runs.any (fun r => runCompleted r && !goodConclusion r.conclusion) then PollVerdict.fail
  else if runs.all runCompleted then PollVerdict.pass
  else PollVerdict.pending

/-- Final verdict of the CI wait. -/
inductive CiVerdict where
  | passed
  | failedCI
deriving DecidableEq

/-- Modelled from the spec: the CI polling loop.  checksAt gives the check-run
list observed at the k-th poll; the fuel is the number of polls that fit in
the timeout, and running out of fuel is the timeout failure. -/
def ciWaitLoop (checksAt : Nat → List CheckRun) : Nat → Nat → CiVerdict
  | 0, _ => CiVerdict.failedCI
  | Nat.succ fuel, k =>
      match evalCheckRuns (checksAt k) with
      | PollVerdict.pass => CiVerdict.passed
      | PollVerdict.fail => CiVerdict.failedCI
      | PollVerdict.pending => ciWaitLoop checksAt fuel (k + 1)

/-- Number of polls performed before the CI timeout elapses (polling at
ciPollInterval until ciTimeoutSeconds). -/
def ciNumPolls (cfg : GitHubConfig) : Nat :=
  (cfg.ciTimeoutSeconds + cfg.ciPollInterval - 1) / cfg.ciPollInterval

/-- Modelled from the spec: wait_for_ci sets status ciRunning, returns early
when the item has no pull request, and otherwise polls the check runs until
pass (status inReview), failure or timeout (status ciFailed). -/
def wait_for_ci (cfg : GitHubConfig) (checksAt : Nat → List CheckRun)
    (item : WorkflowIssue) : WorkflowIssue :=
  let item1 := { item with status := IssueStatus.ciRunning }
  match item1.pr with
  | none => item1
  | some _ =>
      match ciWaitLoop checksAt (ciNumPolls cfg) 0 with
      | CiVerdict.passed => { item1 with status := IssueStatus.inReview }
      | CiVerdict.failedCI => { item1 with status := IssueStatus.ciFailed }

/-- A pull-request review entry (user login, review state, body text). -/
structure ReviewEntry where
  user : String
  state : String
  body : String
deriving DecidableEq

/-- A pull-request review comment entry (user login, body text). -/
structure CommentEntry where
  user : String
  body : String
deriving DecidableEq

/-- Lower-case the characters of a string (ASCII, as the classifier needs). -/
def lowerChars (s : String) : List Char := s.data.map Char.toLower

/-- Does the pattern occur as a contiguous substring of the text? -/
def substrOccurs (pat : List Char) : List Char → Bool
  | [] => pat.isEmpty
  | c :: cs => pat.isPrefixOf (c :: cs) || substrOccurs pat cs

/-- Case-insensitive phrase containment used by the review classifier. -/
def containsPhrase (text : String) (phrase : String) : Bool :=
  substrOccurs phrase.data (lowerChars text)

/-- Modelled from the spec: the approval phrase table of the classifier. -/
def approvalPhrases : List String :=
  ["lgtm", "looks good", "approved", "ship it", "great work"]

/-- Modelled from the spec: the directive and defect phrase table of the
classifier. -/
def actionablePhrases : List String :=
  ["should", "consider", "needs", "bug", "fix", "please fix", "add error handling"]

/-- Modelled from the spec: is_actionable_feedback.  Approval phrases
short-circuit to non-actionable even when action words are present; otherwise
directive or defect language marks the text actionable. -/
def is_actionable_feedback (text : String) : Bool :=
  if approvalPhrases.any (fun p => containsPhrase text p) then false
  else actionablePhrases.any (fun p => containsPhrase text p)

/-- Modelled from the spec: the automated-reviewer bot identity test (logins
such as claude-code and claude-code with a bot suffix, as in the tests). -/
def isClaudeBot (login : String) : Bool :=
  List.isPrefixOf "claude-code".data login.data

/-- Modelled from the spec: check_claude_code_review scans bot-authored
entries; a review with state CHANGES_REQUESTED or a comment judged actionable
contributes its body to the feedback list, and any such entry forces
approved = false; no bot interaction defaults to approved = true. -/
def check_claude_code_review (reviews : List ReviewEntry)
    (comments : List CommentEntry) : Bool × List String :=
  let revFeedback :=
    (reviews.filter
      (fun r => isClaudeBot r.user && decide (r.state = "CHANGES_REQUESTED"))).map
      (fun r => r.body)
  let comFeedback :=
    (comments.filter
      (fun c => isClaudeBot c.user && is_actionable_feedback c.body)).map
      (fun c => c.body)
  let feedback := revFeedback ++ comFeedback
  (feedback.isEmpty, feedback)

/-- Decision taken from one poll of reviews and comments. -/
inductive ReviewDecision where
  | approve
  | changes (feedback : List String)
  | wait
deriving DecidableEq

/-- Modelled from the spec: the priority-ordered review decision policy.
The classifier (when enabled) takes precedence; then any APPROVED review;
then the unattended-safe default when there is nothing to act on; then
CHANGES_REQUESTED triggers a fix round; otherwise keep polling. -/
def reviewDecision (cfg : GitHubConfig) (reviews : List ReviewEntry)
    (comments : List CommentEntry) : ReviewDecision :=
  let claudeFb : Option (List String) :=
    if cfg.claudeCodeReview then
      let res := check_claude_code_review reviews comments
      if res.1 then none else some res.2
    else none
  match claudeFb with
  | some fb => ReviewDecision.changes fb
  | none =>
      if reviews.any (fun r => decide (r.state = "APPROVED")) then ReviewDecision.approve
      else if reviews.isEmpty && comments.isEmpty then ReviewDecision.approve
      else if reviews.any (fun r => decide (r.state = "CHANGES_REQUESTED")) then
        ReviewDecision.changes
          ((reviews.filter (fun r => decide (r.state = "CHANGES_REQUESTED"))).map
            (fun r => r.body))
      else ReviewDecision.wait

/-- Modelled from the spec: the bounded review polling loop; a fix round
records the feedback and increments the fix-attempt counter; an exhausted
budget is terminal failure. -/
def handleReviewsGo (cfg : GitHubConfig) (reviewsAt : Nat → List ReviewEntry)
    (commentsAt : Nat → List CommentEntry) : Nat → Nat → WorkflowIssue → WorkflowIssue
  | 0, _, item => { item with status := IssueStatus.failed }
  | Nat.succ fuel, k, item =>
      match reviewDecision cfg (reviewsAt k) (commentsAt k) with
      | ReviewDecision.approve => { item with status := IssueStatus.approved }
      | ReviewDecision.changes fb =>
          handleReviewsGo cfg reviewsAt commentsAt fuel (k + 1)
            { item with status := IssueStatus.reviewFixing,
                        fixAttempts := item.fixAttempts + 1,
                        errorMessage := String.intercalate "\n" fb }
      | ReviewDecision.wait => handleReviewsGo cfg reviewsAt commentsAt fuel (k + 1) item

/-- Modelled from the spec: handle_reviews is a no-op when the item has no
pull request, and otherwise runs the bounded review polling loop. -/
def handle_reviews (cfg : GitHubConfig) (reviewsAt : Nat → List ReviewEntry)
    (commentsAt : Nat → List CommentEntry) (item : WorkflowIssue) : WorkflowIssue :=
  match item.pr with
  | none => item
  | some _ => handleReviewsGo cfg reviewsAt commentsAt cfg.maxFixAttempts 0 item

/-- A character kept verbatim by the slugifier (lower-case letters and digits
after lower-casing). -/
def isSlugChar (c : Char) : Bool := c.isAlpha || c.isDigit

/-- Modelled from the spec: collapse every run of non-alphanumeric characters
to a single hyphen. -/
def collapseNonAlnum : List Char → List Char
  | [] => []
  | [c] => if isSlugChar c then [c] else ['-']
  | c :: d :: cs =>
      if isSlugChar c then c :: collapseNonAlnum (d :: cs)
      else if isSlugChar d then '-' :: collapseNonAlnum (d :: cs)
      else collapseNonAlnum (d :: cs)

/-- Trim leading and trailing hyphens. -/
def trimHyphens (l : List Char) : List Char :=
  ((l.dropWhile fun c => c == '-').reverse.dropWhile fun c => c == '-').reverse

/-- Modelled from the spec: the branch-name slugifier — lower-case, strip
bracket tags, collapse non-alphanumeric runs to a single hyphen, trim
leading and trailing hyphens. -/
def slugify (title : String) : String :=
  String.mk (trimHyphens (collapseNonAlnum (lowerChars title)))

/-- One git action performed by the commit helper. -/
inductive GitStep where
  | addAll
  | diffStaged
  | commit (message : String)
  | pushTo (branch : String) (force : Bool)
deriving DecidableEq

/-- Modelled from the spec: commit_and_push_fix stages all changes, checks
whether the staged diff is non-empty, and commits and pushes only if there is
something to commit.  The staged-diff outcome is an input; the returned trace
records the git actions performed. -/
def commit_and_push_fix (stagedNonEmpty : Bool) (item : WorkflowIssue)
    (message : String) : List GitStep :=
  [GitStep.addAll, GitStep.diffStaged] ++
    (if stagedNonEmpty then
      [GitStep.commit message, GitStep.pushTo item.branchName false]
    else [])

/-- Branches pushed by a git trace. -/
def pushedBranches (steps : List GitStep) : List String :=
  steps.filterMap (fun s =>
    match s with
    | GitStep.pushTo b _ => some b
    | _ => none)

/-- Number of commits in a git trace. -/
def commitCount (steps : List GitStep) : Nat :=
  (steps.filter (fun s =>
    match s with
    | GitStep.commit _ => true
    | _ => false)).length

/-- One observable action of the per-item stage pipeline. -/
inductive PipeAct where
  | createBranchTry (branch : String)
  | checkoutExisting (branch : String)
  | invokeImplementation
  | pushBranchStep (branch : String)
  | openPR
deriving DecidableEq

/-- The external environment of one stage-pipeline run: whether branch
creation fails because the branch already exists, the outcomes of the local
checks, the polled CI check runs, the polled reviews and comments, and the
pull request returned on creation. -/
structure PipelineEnv where
  branchExists : Bool
  precommitChecks : Nat → CheckResult
  ciChecksAt : Nat → List CheckRun
  reviewsAt : Nat → List ReviewEntry
  commentsAt : Nat → List CommentEntry
  newPr : PullRequest

/-- Modelled from the spec: work_on_issue — set status inProgress, derive the
branch name, create the branch (falling back to checking out the existing
branch when creation fails because it already exists), invoke the
implementation routine, run the local-quality controller (terminal failed on
exhaustion), push and open a pull request, wait for CI, handle reviews, and
auto-merge on approval when configured. -/
def work_on_issue (cfg : GitHubConfig) (env : PipelineEnv)
    (item0 : WorkflowIssue) : WorkflowIssue × List PipeAct :=
  let slug := slugify item0.issue.title
  let item1 := { item0 with status := IssueStatus.inProgress, branchName := slug }
  let pc := iterate_precommit cfg env.precommitChecks item1
  let finalItem :=
    if pc.ok then
      let item2 := { pc.item with pr := some env.newPr, status := IssueStatus.prCreated }
      let item3 := wait_for_ci cfg env.ciChecksAt item2
      if decide (item3.status = IssueStatus.inReview) then
        let item4 := handle_reviews cfg env.reviewsAt env.commentsAt item3
        if decide (item4.status = IssueStatus.approved) && cfg.autoMerge then
          { item4 with status := IssueStatus.merged }
        else item4
      else item3
    else { pc.item with status := IssueStatus.failed }
  let branchActs :=
    if env.branchExists then
      [PipeAct.createBranchTry slug, PipeAct.checkoutExisting slug]
    else [PipeAct.createBranchTry slug]
  let acts :=
    branchActs ++ [PipeAct.invokeImplementation] ++
      (if pc.ok then [PipeAct.pushBranchStep slug, PipeAct.openPR] else [])
  (finalItem, acts)

/-- Outcome of the merge API call as seen by the caller: a returned boolean,
a raised ValueError, or a raised RuntimeError. -/
inductive MergeOutcome where
  | merged (flag : Bool)
  | valueError (msg : String)
  | runtimeError (msg : String)
deriving DecidableEq

/-- Embedded from service.py: GitHubService.merge_pull_request as a function
of the HTTP status code of the merge call and the message field of its JSON
body. -/
def merge_pull_request (statusCode : Nat) (message : String) : MergeOutcome :=
  if statusCode = 200 then MergeOutcome.merged true
  else if statusCode = 405 then
    MergeOutcome.valueError ("PR cannot be merged: " ++ message)
  else if statusCode = 409 then
    MergeOutcome.valueError "PR has merge conflicts that must be resolved first"
  else
    MergeOutcome.runtimeError ("Merge failed with status " ++ toString statusCode)

theorem depMerged_true_iff (store : IssueStore) (d : Nat) :
    depMerged store d = true ↔
      ∃ dep, lookupIssue store d = some dep ∧ dep.status = IssueStatus.merged := by
  unfold depMerged
  cases h : lookupIssue store d with
  | none => simp
  | some dep => simp

/-- Claim C1: for every WorkflowIssue in the issue store, get_ready_issues
returns it iff its status is queued and every id in its dependencies maps to
an issue whose status is merged; in particular every queued issue with an
empty dependency list is returned. -/
theorem c1_get_ready_issues_spec (store : IssueStore) (wi : WorkflowIssue)
    (hmem : wi ∈ store.map (fun p => p.2)) :
    (wi ∈ get_ready_issues store ↔
      (wi.status = IssueStatus.queued ∧
        ∀ d ∈ wi.dependencies,
          ∃ dep, lookupIssue store d = some dep ∧ dep.status = IssueStatus.merged)) ∧
    (wi.status = IssueStatus.queued ∧ wi.dependencies = [] →
      wi ∈ get_ready_issues store) := by
  have hiff : wi ∈ get_ready_issues store ↔
      (wi.status = IssueStatus.queued ∧
        ∀ d ∈ wi.dependencies,
          ∃ dep, lookupIssue store d = some dep ∧ dep.status = IssueStatus.merged) := by
    rw [get_ready_issues, List.mem_filter]
    simp only [hmem, true_and]
    rw [isReady, Bool.and_eq_true, decide_eq_true_eq, List.all_eq_true]
    exact and_congr Iff.rfl
      (forall_congr' fun d => forall_congr' fun _ => depMerged_true_iff store d)
  refine ⟨hiff, ?_⟩
  rintro ⟨hq, hdeps⟩
  exact hiff.mpr ⟨hq, by rw [hdeps]; intro d hd; cases hd⟩

theorem c1_get_ready_issues_spec_witness :
    ({ issue := ⟨2, "B", "", [], "open", ""⟩, dependencies := [1] } : WorkflowIssue) ∈
      get_ready_issues
        [(1, { issue := ⟨1, "A", "", [], "open", ""⟩, status := IssueStatus.merged }),
         (2, { issue := ⟨2, "B", "", [], "open", ""⟩, dependencies := [1] })] := by
  have h := c1_get_ready_issues_spec
    [(1, { issue := ⟨1, "A", "", [], "open", ""⟩, status := IssueStatus.merged }),
     (2, { issue := ⟨2, "B", "", [], "open", ""⟩, dependencies := [1] })]
    ({ issue := ⟨2, "B", "", [], "open", ""⟩, dependencies := [1] } : WorkflowIssue)
    (by decide)
  refine h.1.mpr ⟨rfl, ?_⟩
  intro d hd
  rw [List.mem_singleton.mp hd]
  exact ⟨{ issue := ⟨1, "A", "", [], "open", ""⟩, status := IssueStatus.merged },
    by decide, rfl⟩

/-- Claim C5: check_claude_code_review returns approved = false and includes
the body in the feedback list whenever a bot-authored review has state
CHANGES_REQUESTED or a bot-authored comment is actionable; with no
bot-authored review or comment at all it returns approved = true with empty
feedback. -/
theorem c5_check_claude_code_review_spec (reviews : List ReviewEntry)
    (comments : List CommentEntry) :
    (∀ r ∈ reviews, isClaudeBot r.user = true → r.state = "CHANGES_REQUESTED" →
      (check_claude_code_review reviews comments).1 = false ∧
      r.body ∈ (check_claude_code_review reviews comments).2) ∧
    (∀ c ∈ comments, isClaudeBot c.user = true → is_actionable_feedback c.body = true →
      (check_claude_code_review reviews comments).1 = false ∧
      c.body ∈ (check_claude_code_review reviews comments).2) ∧
    ((∀ r ∈ reviews, isClaudeBot r.user = false) →
     (∀ c ∈ comments, isClaudeBot c.user = false) →
      check_claude_code_review reviews comments = (true, [])) := by
  simp only [check_claude_code_review]
  refine ⟨?_, ?_, ?_⟩
  · intro r hr hbot hstate
    have hmem : r.body ∈
        (reviews.filter
          (fun r => isClaudeBot r.user && decide (r.state = "CHANGES_REQUESTED"))).map
          (fun r => r.body) :=
      List.mem_map_of_mem _ (List.mem_filter.mpr ⟨hr, by simp [hbot, hstate]⟩)
    have hmem2 := List.mem_append_left
      ((comments.filter
        (fun c => isClaudeBot c.user && is_actionable_feedback c.body)).map
        (fun c => c.body)) hmem
    exact ⟨by simp [List.isEmpty_iff, List.ne_nil_of_mem hmem2], hmem2⟩
  · intro c hc hbot hact
    have hmem : c.body ∈
        (comments.filter
          (fun c => isClaudeBot c.user && is_actionable_feedback c.body)).map
          (fun c => c.body) :=
      List.mem_map_of_mem _ (List.mem_filter.mpr ⟨hc, by simp [hbot, hact]⟩)
    have hmem2 := List.mem_append_right
      ((reviews.filter
        (fun r => isClaudeBot r.user && decide (r.state = "CHANGES_REQUESTED"))).map
        (fun r => r.body)) hmem
    exact ⟨by simp [List.isEmpty_iff, List.ne_nil_of_mem hmem2], hmem2⟩
  · intro hrev hcom
    have h1 : reviews.filter
        (fun r => isClaudeBot r.user && decide (r.state = "CHANGES_REQUESTED")) = [] := by
      rw [List.filter_eq_nil_iff]
      intro r hr
      simp [hrev r hr]
    have h2 : comments.filter
        (fun c => isClaudeBot c.user && is_actionable_feedback c.body) = [] := by
      rw [List.filter_eq_nil_iff]
      intro c hc
      simp [hcom c hc]
    simp [h1, h2]

theorem c5_check_claude_code_review_spec_witness :
    (check_claude_code_review
      [⟨"claude-code[bot]", "CHANGES_REQUESTED", "Please fix the type error in line 42"⟩]
      []).1 = false ∧
    "Please fix the type error in line 42" ∈
      (check_claude_code_review
        [⟨"claude-code[bot]", "CHANGES_REQUESTED", "Please fix the type error in line 42"⟩]
        []).2 ∧
    check_claude_code_review ([] : List ReviewEntry)
      [⟨"human-reviewer", "nice"⟩] = (true, []) := by
  have h := c5_check_claude_code_review_spec
    [⟨"claude-code[bot]", "CHANGES_REQUESTED", "Please fix the type error in line 42"⟩] []
  have h2 := c5_check_claude_code_review_spec ([] : List ReviewEntry)
    [⟨"human-reviewer", "nice"⟩]
  refine ⟨?_, ?_, ?_⟩
  · exact (h.1
      ⟨"claude-code[bot]", "CHANGES_REQUESTED", "Please fix the type error in line 42"⟩
      (by decide) (by decide) rfl).1
  · exact (h.1
      ⟨"claude-code[bot]", "CHANGES_REQUESTED", "Please fix the type error in line 42"⟩
      (by decide) (by decide) rfl).2
  · exact h2.2.2 (by intro r hr; cases hr) (by intro c hc; fin_cases hc; decide)

/-- Claim C6: is_actionable_feedback returns false for every text containing
an approval phrase, even when directive words are present; for text with
directive or defect language and no approval phrase it returns true. -/
theorem c6_is_actionable_feedback_spec (text : String) :
    ((containsPhrase text "lgtm" = true ∨ containsPhrase text "looks good" = true ∨
      containsPhrase text "approved" = true ∨ containsPhrase text "ship it" = true ∨
      containsPhrase text "great work" = true) →
      is_actionable_feedback text = false) ∧
    ((containsPhrase text "lgtm" = false ∧ containsPhrase text "looks good" = false ∧
      containsPhrase text "approved" = false ∧ containsPhrase text "ship it" = false ∧
      containsPhrase text "great work" = false) →
      (containsPhrase text "should" = true ∨ containsPhrase text "consider" = true ∨
       containsPhrase text "needs" = true ∨ containsPhrase text "bug" = true ∨
       containsPhrase text "fix" = true ∨ containsPhrase text "please fix" = true ∨
       containsPhrase text "add error handling" = true) →
      is_actionable_feedback text = true) := by
  constructor
  · intro h
    have hcond : (approvalPhrases.any fun p => containsPhrase text p) = true := by
      simp only [approvalPhrases, List.any_cons, List.any_nil, Bool.or_eq_true,
        Bool.or_eq_false_iff]
      tauto
    simp [is_actionable_feedback, hcond]
  · intro hno hyes
    have hcond : (approvalPhrases.any fun p => containsPhrase text p) = false := by
      simp only [approvalPhrases, List.any_cons, List.any_nil, Bool.or_eq_false_iff]
      tauto
    have hcond2 : (actionablePhrases.any fun p => containsPhrase text p) = true := by
      simp only [actionablePhrases, List.any_cons, List.any_nil, Bool.or_eq_true]
      tauto
    simp [is_actionable_feedback, hcond, hcond2]

theorem c6_is_actionable_feedback_spec_witness :
    is_actionable_feedback "LGTM! Great work!" = false ∧
    is_actionable_feedback "You should add error handling here" = true :=
  ⟨(c6_is_actionable_feedback_spec "LGTM! Great work!").1 (Or.inl (by decide)),
   (c6_is_actionable_feedback_spec "You should add error handling here").2
     ⟨by decide, by decide, by decide, by decide, by decide⟩ (Or.inl (by decide))⟩

/-- Claim C8: commit_and_push_fix pushes the item's branch exactly once when
the staged diff is non-empty, and performs no commit and no push when the
staged diff is empty. -/
theorem c8_commit_and_push_fix_spec (staged : Bool) (item : WorkflowIssue)
    (message : String) :
    pushedBranches (commit_and_push_fix staged item message) =
      (if staged then [item.branchName] else []) ∧
    commitCount (commit_and_push_fix staged item message) =
      (if staged then 1 else 0) := by
  cases staged <;> exact ⟨rfl, rfl⟩

/-- Claim C10: merge_pull_request never returns False — it returns True
exactly on HTTP 200, raises ValueError on 405 and 409, and RuntimeError on
every other non-200 status. -/
theorem c10_merge_pull_request_spec (s : Nat) (m : String) :
    (merge_pull_request s m = MergeOutcome.merged true ↔ s = 200) ∧
    (∀ b, merge_pull_request s m = MergeOutcome.merged b → b = true) ∧
    (s = 405 ∨ s = 409 →
      ∃ e, merge_pull_request s m = MergeOutcome.valueError e) ∧
    (s ≠ 200 ∧ s ≠ 405 ∧ s ≠ 409 →
      ∃ e, merge_pull_request s m = MergeOutcome.runtimeError e) := by
  unfold merge_pull_request
  by_cases h200 : s = 200
  · subst h200
    simp
  · by_cases h405 : s = 405
    · subst h405
      simp
    · by_cases h409 : s = 409
      · subst h409
        simp
      · simp [h200, h405, h409]

theorem c10_merge_pull_request_spec_witness :
    merge_pull_request 200 "" = MergeOutcome.merged true ∧
    (∃ e, merge_pull_request 405 "Pull Request is not mergeable" =
      MergeOutcome.valueError e) ∧
    (∃ e, merge_pull_request 500 "" = MergeOutcome.runtimeError e) :=
  ⟨(c10_merge_pull_request_spec 200 "").1.mpr rfl,
   (c10_merge_pull_request_spec 405 "Pull Request is not mergeable").2.2.1 (Or.inl rfl),
   (c10_merge_pull_request_spec 500 "").2.2.2 ⟨by decide, by decide, by decide⟩⟩

theorem iteratePrecommitGo_all_failed (checks : Nat → CheckResult) (outs : Nat → String) :
    ∀ (fuel k runs impls : Nat) (item : WorkflowIssue),
      (∀ j, j < fuel → checks (k + j) = CheckResult.failed (outs (k + j))) →
      (iteratePrecommitGo checks fuel k runs impls item).ok = false ∧
      (iteratePrecommitGo checks fuel k runs impls item).item.status =
        IssueStatus.precommitFailed ∧
      (iteratePrecommitGo checks fuel k runs impls item).item.fixAttempts =
        item.fixAttempts + fuel ∧
      (iteratePrecommitGo checks fuel k runs impls item).runs = runs + fuel ∧
      (iteratePrecommitGo checks fuel k runs impls item).implCalls = impls + fuel ∧
      (0 < fuel →
        (iteratePrecommitGo checks fuel k runs impls item).item.errorMessage =
          outs (k + fuel - 1)) := by
  intro fuel
  induction fuel with
  | zero =>
      intro k runs impls item _
      refine ⟨rfl, rfl, rfl, rfl, rfl, ?_⟩
      intro h0
      exact absurd h0 (by omega)
  | succ fuel ih =>
      intro k runs impls item h
      have h0 : checks k = CheckResult.failed (outs k) := by
        simpa using h 0 (Nat.succ_pos fuel)
      have hshift : ∀ j, j < fuel →
          checks (k + 1 + j) = CheckResult.failed (outs (k + 1 + j)) := by
        intro j hj
        have := h (j + 1) (Nat.succ_lt_succ hj)
        rwa [show k + (j + 1) = k + 1 + j by omega] at this
      have ihr := ih (k + 1) (runs + 1) (impls + 1)
        { item with errorMessage := outs k, fixAttempts := item.fixAttempts + 1 } hshift
      have hstep : iteratePrecommitGo checks (fuel + 1) k runs impls item =
          iteratePrecommitGo checks fuel (k + 1) (runs + 1) (impls + 1)
            { item with errorMessage := outs k, fixAttempts := item.fixAttempts + 1 } := by
        simp [iteratePrecommitGo, h0]
      rw [hstep]
      refine ⟨ihr.1, ihr.2.1, ?_, ?_, ?_, ?_⟩
      · rw [ihr.2.2.1]
        simp
        omega
      · rw [ihr.2.2.2.1]
        omega
      · rw [ihr.2.2.2.2.1]
        omega
      · intro _
        rcases Nat.eq_zero_or_pos fuel with hz | hp
        · subst hz
          have := ihr.2.2.1
          rcases hgo : iteratePrecommitGo checks 0 (k + 1) (runs + 1) (impls + 1)
            { item with errorMessage := outs k, fixAttempts := item.fixAttempts + 1 } with ⟨ok, it, r, i⟩
          simp [iteratePrecommitGo] at hgo
          rw [← hgo.2.1]
          simp [iteratePrecommitGo]
        · have := ihr.2.2.2.2.2 hp
          rw [this]
          congr 1
          omega

theorem iteratePrecommitGo_pass_after (checks : Nat → CheckResult) (outs : Nat → String) :
    ∀ (j fuel k runs impls : Nat) (item : WorkflowIssue),
      j < fuel →
      (∀ i, i < j → checks (k + i) = CheckResult.failed (outs (k + i))) →
      checks (k + j) = CheckResult.passed →
      (iteratePrecommitGo checks fuel k runs impls item).ok = true ∧
      (iteratePrecommitGo checks fuel k runs impls item).item.fixAttempts =
        item.fixAttempts + j ∧
      (iteratePrecommitGo checks fuel k runs impls item).runs = runs + j + 1 ∧
      (iteratePrecommitGo checks fuel k runs impls item).implCalls = impls + j := by
  intro j
  induction j with
  | zero =>
      intro fuel k runs impls item hlt _ hpass
      rcases fuel with _ | fuel
      · exact absurd hlt (by omega)
      · have hp : checks k = CheckResult.passed := by simpa using hpass
        simp [iteratePrecommitGo, hp]
  | succ j ih =>
      intro fuel k runs impls item hlt hfail hpass
      rcases fuel with _ | fuel
      · exact absurd hlt (by omega)
      · have h0 : checks k = CheckResult.failed (outs k) := by
          simpa using hfail 0 (Nat.succ_pos j)
        have hstep : iteratePrecommitGo checks (fuel + 1) k runs impls item =
            iteratePrecommitGo checks fuel (k + 1) (runs + 1) (impls + 1)
              { item with errorMessage := outs k, fixAttempts := item.fixAttempts + 1 } := by
          simp [iteratePrecommitGo, h0]
        have hfail2 : ∀ i, i < j →
            checks (k + 1 + i) = CheckResult.failed (outs (k + 1 + i)) := by
          intro i hi
          have := hfail (i + 1) (Nat.succ_lt_succ hi)
          rwa [show k + (i + 1) = k + 1 + i by omega] at this
        have hpass2 : checks (k + 1 + j) = CheckResult.passed := by
          rwa [show k + (j + 1) = k + 1 + j by omega] at hpass
        have ihr := ih fuel (k + 1) (runs + 1) (impls + 1)
          { item with errorMessage := outs k, fixAttempts := item.fixAttempts + 1 }
          (by omega) hfail2 hpass2
        rw [hstep]
        refine ⟨ihr.1, ?_, ?_, ?_⟩
        · rw [ihr.2.1]
          simp
          omega
        · rw [ihr.2.2.1]
          omega
        · rw [ihr.2.2.2]
          omega

/-- Claim C2: the local-quality iteration controller.  Disabled iteration runs
the check exactly once with no re-invocation and returns its pass or fail
result; enabled iteration increments the fix-attempt counter and re-invokes
the implementation routine once per failed check, succeeds as soon as a check
passes within the budget, and on exhausting maxFixAttempts failures sets
status precommitFailed, records the last captured output, and returns
failure. -/
theorem c2_iterate_precommit_spec (cfg : GitHubConfig) (checks : Nat → CheckResult)
    (outs : Nat → String) (item : WorkflowIssue) :
    (cfg.iterateOnPrecommit = false →
      ((iterate_precommit cfg checks item).ok = true ↔ checks 0 = CheckResult.passed) ∧
      (iterate_precommit cfg checks item).runs = 1 ∧
      (iterate_precommit cfg checks item).implCalls = 0) ∧
    (cfg.iterateOnPrecommit = true →
      ((∀ j, j < cfg.maxFixAttempts → checks j = CheckResult.failed (outs j)) →
        (iterate_precommit cfg checks item).ok = false ∧
        (iterate_precommit cfg checks item).item.status = IssueStatus.precommitFailed ∧
        (iterate_precommit cfg checks item).item.fixAttempts =
          item.fixAttempts + cfg.maxFixAttempts ∧
        (iterate_precommit cfg checks item).implCalls = cfg.maxFixAttempts ∧
        (0 < cfg.maxFixAttempts →
          (iterate_precommit cfg checks item).item.errorMessage =
            outs (cfg.maxFixAttempts - 1))) ∧
      (∀ j, j < cfg.maxFixAttempts →
        (∀ i, i < j → checks i = CheckResult.failed (outs i)) →
        checks j = CheckResult.passed →
        (iterate_precommit cfg checks item).ok = true ∧
        (iterate_precommit cfg checks item).item.fixAttempts = item.fixAttempts + j ∧
        (iterate_precommit cfg checks item).implCalls = j)) := by
  constructor
  · intro hdis
    rw [iterate_precommit, hdis]
    simp only [Bool.false_eq_true, if_false]
    cases hc : checks 0 with
    | passed => simp [run_precommit, hc]
    | failed out => simp [run_precommit, hc]
  · intro hen
    rw [iterate_precommit, hen]
    simp only [if_true]
    constructor
    · intro hall
      have h := iteratePrecommitGo_all_failed checks outs cfg.maxFixAttempts 0 0 0 item
        (by intro i hi; simpa using hall i hi)
      exact ⟨h.1, h.2.1, h.2.2.1, by simpa using h.2.2.2.2.1, by
        intro hpos
        have := h.2.2.2.2.2 hpos
        simpa using this⟩
    · intro j hj hfail hpass
      have h := iteratePrecommitGo_pass_after checks outs j cfg.maxFixAttempts 0 0 0 item
        hj (by intro i hi; simpa using hfail i hi) (by simpa using hpass)
      exact ⟨h.1, h.2.1, by simpa using h.2.2.2⟩

theorem c2_iterate_precommit_spec_witness :
    (iterate_precommit { owner := "t", repo := "t", iterateOnPrecommit := false }
      (fun _ => CheckResult.failed "error")
      { issue := ⟨1, "Test", "", [], "open", ""⟩ }).ok = false ∧
    (iterate_precommit { owner := "t", repo := "t", iterateOnPrecommit := false }
      (fun _ => CheckResult.failed "error")
      { issue := ⟨1, "Test", "", [], "open", ""⟩ }).runs = 1 ∧
    (iterate_precommit { owner := "t", repo := "t", maxFixAttempts := 3 }
      (fun k => if k = 0 then CheckResult.failed "lint error" else CheckResult.passed)
      { issue := ⟨1, "Test", "", [], "open", ""⟩ }).ok = true ∧
    (iterate_precommit { owner := "t", repo := "t", maxFixAttempts := 3 }
      (fun k => if k = 0 then CheckResult.failed "lint error" else CheckResult.passed)
      { issue := ⟨1, "Test", "", [], "open", ""⟩ }).item.fixAttempts = 1 ∧
    (iterate_precommit { owner := "t", repo := "t", maxFixAttempts := 1 }
      (fun _ => CheckResult.failed "error")
      { issue := ⟨1, "Test", "", [], "open", ""⟩ }).item.status =
        IssueStatus.precommitFailed := by
  have hd := (c2_iterate_precommit_spec
    { owner := "t", repo := "t", iterateOnPrecommit := false }
    (fun _ => CheckResult.failed "error") (fun _ => "error")
    { issue := ⟨1, "Test", "", [], "open", ""⟩ }).1 rfl
  have hp := ((c2_iterate_precommit_spec
    { owner := "t", repo := "t", maxFixAttempts := 3 }
    (fun k => if k = 0 then CheckResult.failed "lint error" else CheckResult.passed)
    (fun _ => "lint error")
    { issue := ⟨1, "Test", "", [], "open", ""⟩ }).2 rfl).2 1 (by decide)
    (by intro i hi; have hz : i = 0 := by omega
        subst hz
        rfl)
    rfl
  have hf := ((c2_iterate_precommit_spec
    { owner := "t", repo := "t", maxFixAttempts := 1 }
    (fun _ => CheckResult.failed "error") (fun _ => "error")
    { issue := ⟨1, "Test", "", [], "open", ""⟩ }).2 rfl).1
    (by intro j hj; rfl)
  refine ⟨?_, hd.2.1, hp.1, hp.2.1, hf.2.1⟩
  rcases hok : (iterate_precommit { owner := "t", repo := "t", iterateOnPrecommit := false }
      (fun _ => CheckResult.failed "error")
      { issue := ⟨1, "Test", "", [], "open", ""⟩ }).ok with _ | _
  · rfl
  · exact absurd (hd.1.mp hok) (by decide)

theorem evalCheckRuns_pass (runs : List CheckRun) (hne : runs ≠ [])
    (hall : ∀ r ∈ runs, r.status = "completed" ∧
      (r.conclusion = "success" ∨ r.conclusion = "skipped")) :
    evalCheckRuns runs = PollVerdict.pass := by
  have he : runs.isEmpty = false := by simp [List.isEmpty_iff, hne]
  have hany : (runs.any fun r => runCompleted r && !goodConclusion r.conclusion) = false := by
    rw [List.any_eq_false]
    intro r hr
    rcases hall r hr with ⟨_, hc⟩
    rcases hc with hc | hc <;> simp [goodConclusion, hc]
  have hallc : runs.all runCompleted = true := by
    rw [List.all_eq_true]
    intro r hr
    simp [runCompleted, (hall r hr).1]
  simp [evalCheckRuns, he, hany, hallc]

theorem evalCheckRuns_fail (runs : List CheckRun) (r : CheckRun) (hr : r ∈ runs)
    (hc : r.status = "completed") (h1 : r.conclusion ≠ "success")
    (h2 : r.conclusion ≠ "skipped") :
    evalCheckRuns runs = PollVerdict.fail := by
  have he : runs.isEmpty = false := by
    simp [List.isEmpty_iff]
    exact List.ne_nil_of_mem hr
  have hany : (runs.any fun r => runCompleted r && !goodConclusion r.conclusion) = true := by
    rw [List.any_eq_true]
    exact ⟨r, hr, by simp [runCompleted, goodConclusion, hc, h1, h2]⟩
  simp [evalCheckRuns, he, hany]

theorem ciWaitLoop_allEmpty (checksAt : Nat → List CheckRun)
    (hempty : ∀ k, checksAt k = []) :
    ∀ fuel k, ciWaitLoop checksAt fuel k = CiVerdict.failedCI := by
  intro fuel
  induction fuel with
  | zero => intro k; rfl
  | succ fuel ih =>
      intro k
      have hev : evalCheckRuns (checksAt k) = PollVerdict.pending := by
        rw [hempty k]
        rfl
      simpa [ciWaitLoop, hev] using ih (k + 1)

/-- Claim C3: wait_for_ci on an item with a pull request reaches status
inReview when every check run is completed with conclusion success or
skipped, reaches ciFailed when any completed run has another conclusion, and
treats an empty check-run list as pending so that a permanently empty list
ends in ciFailed at the timeout, never a pass. -/
theorem c3_wait_for_ci_spec (cfg : GitHubConfig) (checksAt : Nat → List CheckRun)
    (item : WorkflowIssue) (p : PullRequest) (hpr : item.pr = some p)
    (hpolls : 1 ≤ ciNumPolls cfg) :
    ((checksAt 0 ≠ [] ∧ ∀ r ∈ checksAt 0, r.status = "completed" ∧
        (r.conclusion = "success" ∨ r.conclusion = "skipped")) →
      (wait_for_ci cfg checksAt item).status = IssueStatus.inReview) ∧
    ((∃ r ∈ checksAt 0, r.status = "completed" ∧ r.conclusion ≠ "success" ∧
        r.conclusion ≠ "skipped") →
      (wait_for_ci cfg checksAt item).status = IssueStatus.ciFailed) ∧
    ((∀ k, checksAt k = []) →
      (wait_for_ci cfg checksAt item).status = IssueStatus.ciFailed) := by
  have hw : wait_for_ci cfg checksAt item =
      (match ciWaitLoop checksAt (ciNumPolls cfg) 0 with
       | CiVerdict.passed =>
           { item with status := IssueStatus.inReview }
       | CiVerdict.failedCI =>
           { item with status := IssueStatus.ciFailed }) := by
    simp only [wait_for_ci, hpr]
  rcases hfuel : ciNumPolls cfg with _ | n
  · omega
  · refine ⟨?_, ?_, ?_⟩
    · rintro ⟨hne, hall⟩
      have hv := evalCheckRuns_pass (checksAt 0) hne hall
      have hloop : ciWaitLoop checksAt (ciNumPolls cfg) 0 = CiVerdict.passed := by
        rw [hfuel]
        simp [ciWaitLoop, hv]
      rw [hw, hloop]
    · rintro ⟨r, hr, hc, h1, h2⟩
      have hv := evalCheckRuns_fail (checksAt 0) r hr hc h1 h2
      have hloop : ciWaitLoop checksAt (ciNumPolls cfg) 0 = CiVerdict.failedCI := by
        rw [hfuel]
        simp [ciWaitLoop, hv]
      rw [hw, hloop]
    · intro hempty
      have hloop := ciWaitLoop_allEmpty checksAt hempty (ciNumPolls cfg) 0
      rw [hw, hloop]

theorem c3_wait_for_ci_spec_witness :
    (wait_for_ci { owner := "t", repo := "t" }
      (fun _ => [⟨"tests", "completed", "success"⟩])
      { issue := ⟨1, "Test", "", [], "open", ""⟩,
        pr := some ⟨1, "PR", "", "branch", "main", "open", "", none, none⟩,
        branchName := "branch" }).status = IssueStatus.inReview ∧
    (wait_for_ci { owner := "t", repo := "t" }
      (fun _ => [⟨"tests", "completed", "failure"⟩])
      { issue := ⟨1, "Test", "", [], "open", ""⟩,
        pr := some ⟨1, "PR", "", "branch", "main", "open", "", none, none⟩,
        branchName := "branch" }).status = IssueStatus.ciFailed ∧
    (wait_for_ci { owner := "t", repo := "t" }
      (fun _ => ([] : List CheckRun))
      { issue := ⟨1, "Test", "", [], "open", ""⟩,
        pr := some ⟨1, "PR", "", "branch", "main", "open", "", none, none⟩,
        branchName := "branch" }).status = IssueStatus.ciFailed := by
  refine ⟨?_, ?_, ?_⟩
  · exact (c3_wait_for_ci_spec { owner := "t", repo := "t" }
      (fun _ => [⟨"tests", "completed", "success"⟩])
      { issue := ⟨1, "Test", "", [], "open", ""⟩,
        pr := some ⟨1, "PR", "", "branch", "main", "open", "", none, none⟩,
        branchName := "branch" }
      ⟨1, "PR", "", "branch", "main", "open", "", none, none⟩ rfl (by decide)).1
      (by decide)
  · exact (c3_wait_for_ci_spec { owner := "t", repo := "t" }
      (fun _ => [⟨"tests", "completed", "failure"⟩])
      { issue := ⟨1, "Test", "", [], "open", ""⟩,
        pr := some ⟨1, "PR", "", "branch", "main", "open", "", none, none⟩,
        branchName := "branch" }
      ⟨1, "PR", "", "branch", "main", "open", "", none, none⟩ rfl (by decide)).2.1
      (by decide)
  · exact (c3_wait_for_ci_spec { owner := "t", repo := "t" }
      (fun _ => ([] : List CheckRun))
      { issue := ⟨1, "Test", "", [], "open", ""⟩,
        pr := some ⟨1, "PR", "", "branch", "main", "open", "", none, none⟩,
        branchName := "branch" }
      ⟨1, "PR", "", "branch", "main", "open", "", none, none⟩ rfl (by decide)).2.2
      (fun _ => rfl)

/-- Claim C4: handle_reviews on an item with a pull request and zero reviews
and zero comments sets the status to approved rather than waiting; absence of
reviewer interaction is approval, not an error. -/
theorem c4_handle_reviews_no_interaction (cfg : GitHubConfig)
    (reviewsAt : Nat → List ReviewEntry) (commentsAt : Nat → List CommentEntry)
    (item : WorkflowIssue) (p : PullRequest) (hpr : item.pr = some p)
    (hfuel : 1 ≤ cfg.maxFixAttempts)
    (hrev : reviewsAt 0 = []) (hcom : commentsAt 0 = []) :
    (handle_reviews cfg reviewsAt commentsAt item).status = IssueStatus.approved := by
  have hdec : reviewDecision cfg (reviewsAt 0) (commentsAt 0) = ReviewDecision.approve := by
    rw [hrev, hcom]
    by_cases hc : cfg.claudeCodeReview
    · simp [reviewDecision, hc, check_claude_code_review]
    · simp [reviewDecision, hc]
  have hgo : handle_reviews cfg reviewsAt commentsAt item =
      handleReviewsGo cfg reviewsAt commentsAt cfg.maxFixAttempts 0 item := by
    simp only [handle_reviews, hpr]
  rcases hn : cfg.maxFixAttempts with _ | n
  · omega
  · rw [hgo, hn]
    simp [handleReviewsGo, hdec]

theorem c4_handle_reviews_no_interaction_witness :
    (handle_reviews { owner := "t", repo := "t", yoloMode := true, maxFixAttempts := 2 }
      (fun _ => []) (fun _ => [])
      { issue := ⟨1, "Test", "", [], "open", ""⟩,
        pr := some ⟨1, "PR", "", "branch", "main", "open", "", none, none⟩,
        branchName := "branch" }).status = IssueStatus.approved :=
  c4_handle_reviews_no_interaction
    { owner := "t", repo := "t", yoloMode := true, maxFixAttempts := 2 }
    (fun _ => []) (fun _ => [])
    { issue := ⟨1, "Test", "", [], "open", ""⟩,
      pr := some ⟨1, "PR", "", "branch", "main", "open", "", none, none⟩,
      branchName := "branch" }
    ⟨1, "PR", "", "branch", "main", "open", "", none, none⟩
    rfl (by decide) rfl rfl

theorem head_not_of_dropWhile (p : Char → Bool) :
    ∀ (l : List Char) (c : Char), (l.dropWhile p).head? = some c → p c = false := by
  intro l
  induction l with
  | nil => intro c h; cases h
  | cons a l ih =>
      intro c h
      rw [List.dropWhile_cons] at h
      by_cases hpa : p a = true
      · rw [if_pos hpa] at h
        exact ih c h
      · rw [if_neg hpa] at h
        have hca : c = a := by
          simpa using h.symm
        rw [hca]
        exact Bool.not_eq_true _ ▸ hpa

theorem trimHyphens_eq_rdropWhile (l : List Char) :
    trimHyphens l =
      List.rdropWhile (fun c => c == '-') (l.dropWhile fun c => c == '-') := by
  simp [trimHyphens, List.rdropWhile]

theorem trimHyphens_head_not (l : List Char) (c : Char)
    (h : (trimHyphens l).head? = some c) : (c == '-') = false := by
  rw [trimHyphens_eq_rdropWhile] at h
  have hpre := List.rdropWhile_prefix (fun c => c == '-')
    (l := l.dropWhile fun c => c == '-')
  rcases hpre with ⟨s, hs⟩
  have hm : ((l.dropWhile fun c => c == '-').head?) = some c := by
    rw [← hs, List.head?_append]
    simp [h]
  exact head_not_of_dropWhile _ l c hm

theorem trimHyphens_getLast_not (l : List Char) (c : Char)
    (h : (trimHyphens l).getLast? = some c) : (c == '-') = false := by
  rw [trimHyphens_eq_rdropWhile] at h
  have hne : List.rdropWhile (fun c => c == '-') (l.dropWhile fun c => c == '-') ≠ [] := by
    intro hnil
    rw [hnil] at h
    cases h
  have hlast := List.rdropWhile_last_not (fun c => c == '-')
    (l := l.dropWhile fun c => c == '-') hne
  have hc : c = (List.rdropWhile (fun c => c == '-')
      (l.dropWhile fun c => c == '-')).getLast hne := by
    have := List.getLast?_eq_getLast _ hne
    rw [this] at h
    exact (Option.some_injective _ h).symm
  rw [hc]
  exact Bool.not_eq_true _ ▸ hlast

/-- Claim C7: slugify lower-cases, strips bracket tags, collapses
non-alphanumeric runs to a single hyphen and trims boundary hyphens; the two
spec examples hold and no result ever starts or ends with a hyphen. -/
theorem c7_slugify_spec :
    slugify "[Setup] Initialize project" = "setup-initialize-project" ∧
    slugify "Test   Multiple   Spaces" = "test-multiple-spaces" ∧
    ∀ s : String,
      (slugify s).data.head? ≠ some '-' ∧ (slugify s).data.getLast? ≠ some '-' := by
  refine ⟨by decide, by decide, ?_⟩
  intro s
  constructor
  · intro hcon
    have hh : (trimHyphens (collapseNonAlnum (lowerChars s))).head? = some '-' := hcon
    have := trimHyphens_head_not _ _ hh
    simp at this
  · intro hcon
    have hh : (trimHyphens (collapseNonAlnum (lowerChars s))).getLast? = some '-' := hcon
    have := trimHyphens_getLast_not _ _ hh
    simp at this

theorem c7_slugify_spec_witness :
    slugify "[Feature] Add dark mode!" = "feature-add-dark-mode" ∧
    (slugify "---x---").data.head? ≠ some '-' ∧
    (slugify "---x---").data.getLast? ≠ some '-' :=
  ⟨by decide, (c7_slugify_spec.2.2 "---x---").1, (c7_slugify_spec.2.2 "---x---").2⟩

/-- Claim C9: in work_on_issue, when branch creation fails because the branch
already exists, the pipeline checks out the existing branch and continues:
the resulting item state is identical to a run where creation succeeded (so
the error is not surfaced and the item is not marked failed on that account),
and the checkout action is performed. -/
theorem c9_work_on_issue_branch_exists (cfg : GitHubConfig) (env : PipelineEnv)
    (item : WorkflowIssue) :
    (work_on_issue cfg { env with branchExists := true } item).1 =
      (work_on_issue cfg { env with branchExists := false } item).1 ∧
    PipeAct.checkoutExisting (slugify item.issue.title) ∈
      (work_on_issue cfg { env with branchExists := true } item).2 := by
  constructor
  · rfl
  · simp only [work_on_issue]
    simp [List.mem_append]
